import Mathlib

/-!
Verification development for the "Harry's Reading List" application
(`src/app.js`).  The application is a client-side book tracker: an
in-memory array of book records, persisted to browser local storage as
JSON, with filtering/sorting, six status-derived display buckets, CRUD
operations, JSON import/export and a cover-URL cache.

The definitions below are a shallow embedding of the relevant functions
of `app.js`.  JavaScript objects become Lean structures, `null`-able
numeric fields become `Option Int`, JSON documents become an explicit
`Json` syntax tree (the browser's `JSON.stringify`/`JSON.parse` pair is
modelled as the identity on that tree), and the stable sort mandated for
`Array.prototype.sort` is modelled by an insertion sort, which is the
unique stable sort for the consistent comparators used by the app.
-/

namespace ReadingList

/-- JSON value tree.  Numbers are modelled as `Int`: every number the
application writes is produced by `parseInt` and is integral. -/
inductive Json where
  | null : Json
  | bool (b : Bool) : Json
  | num (n : Int) : Json
  | str (s : String) : Json
  | arr (elems : List Json) : Json
  | obj (fields : List (String × Json)) : Json
deriving Repr

/-- Book record, with exactly the fields built by `handleFormSubmit` in
`src/app.js` (lines 747–768).  String-typed fields that JavaScript may
hold as `''` are plain `String`s; `number | null` fields are
`Option Int`. -/
structure Book where
  id : String
  title : String
  author : String
  genre : String
  yearPublished : Option Int
  pageCount : Option Int
  coverImage : String
  format : String
  status : String
  datePurchased : String
  dateStarted : String
  dateCompleted : String
  currentPage : Option Int
  rating : Option Int
  favorite : Bool
  tags : List String
  recommendedBy : String
  notes : String
  description : String
  dateAdded : String
deriving Repr, DecidableEq

/-- The five legal `status` values (`STATUS_LABELS` keys, `app.js`
lines 9–15). -/
def statusValues : List String :=
  ["wishlist", "up-next", "reading", "on-hold", "finished"]

/-! Bucket predicates, transcribed from the six `filter` calls in
`renderAll` (`app.js` lines 140–145). -/

/-- Bucket "Top Picks": `b.favorite && b.status === 'finished'`. -/
def isTopPick (b : Book) : Bool := b.favorite && b.status == "finished"

/-- Bucket "Currently Reading": `b.status === 'reading'`. -/
def isReadingBucket (b : Book) : Bool := b.status == "reading"

/-- Bucket "Up Next": `b.status === 'up-next'`. -/
def isUpNextBucket (b : Book) : Bool := b.status == "up-next"

/-- Bucket "Wishlist": `b.status === 'wishlist'`. -/
def isWishlistBucket (b : Book) : Bool := b.status == "wishlist"

/-- Bucket "On Hold": `b.status === 'on-hold'`. -/
def isOnHoldBucket (b : Book) : Bool := b.status == "on-hold"

/-- Bucket "Finished" (non-favorite):
`b.status === 'finished' && !b.favorite`. -/
def isFinishedBucket (b : Book) : Bool := b.status == "finished" && !b.favorite

/-- The six bucket lists computed by `renderAll` from the filtered
collection (`app.js` lines 140–145). -/
structure Buckets where
  favorites : List Book
  reading : List Book
  owned : List Book
  wantToBuy : List Book
  paused : List Book
  completed : List Book
deriving Repr, DecidableEq

/-- Bucketing step of `renderAll`: six `Array.prototype.filter` passes
over the filtered list. -/
def renderAllBuckets (filtered : List Book) : Buckets where
  favorites := filtered.filter isTopPick
  reading := filtered.filter isReadingBucket
  owned := filtered.filter isUpNextBucket
  wantToBuy := filtered.filter isWishlistBucket
  paused := filtered.filter isOnHoldBucket
  completed := filtered.filter isFinishedBucket

/-- Number of the six bucket predicates that hold of a single book. -/
def bucketHits (b : Book) : Nat :=
  [isTopPick b, isReadingBucket b, isUpNextBucket b, isWishlistBucket b,
   isOnHoldBucket b, isFinishedBucket b].count true

lemma bucketHits_eq_one (b : Book) (h : b.status ∈ statusValues) :
    bucketHits b = 1 := by
  simp only [statusValues, List.mem_cons, List.not_mem_nil, or_false] at h
  rcases h with h | h | h | h | h <;>
    rcases hf : b.favorite <;>
      simp [bucketHits, isTopPick, isReadingBucket, isUpNextBucket,
        isWishlistBucket, isOnHoldBucket, isFinishedBucket, h, hf,
        List.count_cons]

lemma bucket_ite_sum (b : Book) (h : b.status ∈ statusValues) :
    ((if isTopPick b then 1 else 0) + (if isReadingBucket b then 1 else 0) +
     (if isUpNextBucket b then 1 else 0) + (if isWishlistBucket b then 1 else 0) +
     (if isOnHoldBucket b then 1 else 0) + (if isFinishedBucket b then 1 else 0) : Nat)
      = 1 := by
  simp only [statusValues, List.mem_cons, List.not_mem_nil, or_false] at h
  rcases h with h | h | h | h | h <;>
    rcases hf : b.favorite <;>
      simp [isTopPick, isReadingBucket, isUpNextBucket,
        isWishlistBucket, isOnHoldBucket, isFinishedBucket, h, hf]

lemma filter_length_cons (p : Book → Bool) (b : Book) (l : List Book) :
    ((b :: l).filter p).length = (if p b then 1 else 0) + (l.filter p).length := by
  rcases hp : p b <;> simp [List.filter_cons, hp, Nat.add_comm]

lemma buckets_partition_length (l : List Book)
    (h : ∀ b ∈ l, b.status ∈ statusValues) :
    (l.filter isTopPick).length + (l.filter isReadingBucket).length +
    (l.filter isUpNextBucket).length + (l.filter isWishlistBucket).length +
    (l.filter isOnHoldBucket).length + (l.filter isFinishedBucket).length
      = l.length := by
  induction l with
  | nil => simp
  | cons b t ih =>
      have hb := bucket_ite_sum b (h b (List.mem_cons_self b t))
      have ht := ih (fun x hx => h x (List.mem_cons_of_mem b hx))
      simp only [filter_length_cons, List.length_cons]
      omega

/-- C1.  For every book whose `status` is one of the five enum values,
exactly one of the six bucket predicates used by `renderAll` holds; and
consequently the six filters partition any such list: the bucket sizes
sum to the size of the filtered list. -/
theorem renderAll_buckets_partition :
    (∀ b : Book, b.status ∈ statusValues → bucketHits b = 1) ∧
    (∀ l : List Book, (∀ b ∈ l, b.status ∈ statusValues) →
      (renderAllBuckets l).favorites.length + (renderAllBuckets l).reading.length +
      (renderAllBuckets l).owned.length + (renderAllBuckets l).wantToBuy.length +
      (renderAllBuckets l).paused.length + (renderAllBuckets l).completed.length
        = l.length) := by
  refine ⟨bucketHits_eq_one, fun l h => ?_⟩
  simpa [renderAllBuckets] using buckets_partition_length l h

/-- Sample book used to instantiate hypotheses of the theorems below. -/
def sampleBook : Book where
  id := "b001"
  title := "Dune"
  author := "Frank Herbert"
  genre := "Science Fiction"
  yearPublished := some 1965
  pageCount := some 412
  coverImage := ""
  format := "Physical (Used)"
  status := "finished"
  datePurchased := ""
  dateStarted := ""
  dateCompleted := ""
  currentPage := none
  rating := some 5
  favorite := true
  tags := []
  recommendedBy := ""
  notes := ""
  description := ""
  dateAdded := "2024-01-01"

/-- Witness for C1 at a concrete book and a concrete two-book list. -/
theorem renderAll_buckets_partition_witness :
    bucketHits sampleBook = 1 ∧
    (renderAllBuckets [sampleBook]).favorites.length +
    (renderAllBuckets [sampleBook]).reading.length +
    (renderAllBuckets [sampleBook]).owned.length +
    (renderAllBuckets [sampleBook]).wantToBuy.length +
    (renderAllBuckets [sampleBook]).paused.length +
    (renderAllBuckets [sampleBook]).completed.length = 1 :=
  ⟨renderAll_buckets_partition.1 sampleBook (by decide),
   renderAll_buckets_partition.2 [sampleBook] (by decide)⟩

/-! Cover cache and cover resolution (`app.js` lines 41–96).  The cache
is a JavaScript object keyed by the composite string
`book.title + '|||' + book.author`; a stored `null` is the explicit
"no cover found" sentinel.  We model the object as an association list
in property-insertion order, and each of the three network strategies
by the url it would contribute (`none` when the strategy's fetch throws
or its response yields no cover).  A strategy that runs always costs
exactly one network request, whether or not it contributes a url. -/

/-- Cover cache contents: composite key to url-or-null-sentinel. -/
abbrev CoverCache := List (String × Option String)

/-- Composite cache key built in `fetchCoverForBook` (line 53). -/
def coverKey (book : Book) : String := book.title ++ "|||" ++ book.author

/-- Result of one call to `fetchCoverForBook`: the returned url (or
null), the cover cache after the call, and the number of network
requests the call issued. -/
structure FetchResult where
  url : Option String
  cache : CoverCache
  requests : Nat
deriving Repr, DecidableEq

/-- Model of `fetchCoverForBook` (`app.js` lines 51–96): consult the
cache under the composite key and return the cached value (even the
null sentinel) with no network traffic on a hit; on a miss run the
strategies in order — Open Library title+author, Open Library
title-only, Google Books — stopping at the first that produces a url,
then store the outcome (url or null) under the key and return it.
`s1 s2 s3` give each strategy's contribution if it were run. -/
def fetchCoverForBook (cache : CoverCache) (book : Book)
    (s1 s2 s3 : Option String) : FetchResult :=
  let cacheKey := coverKey book
  match cache.lookup cacheKey with
  | some v => ⟨v, cache, 0⟩
  | none =>
    match s1 with
    | some u => ⟨some u, cache ++ [(cacheKey, some u)], 1⟩
    | none =>
      match s2 with
      | some u => ⟨some u, cache ++ [(cacheKey, some u)], 2⟩
      | none => ⟨s3, cache ++ [(cacheKey, s3)], 3⟩

/-- Model of `saveCoverCache` (`app.js` lines 47–49): the JSON document
`JSON.stringify(cache)` writes to local storage.  A `none` value
serializes as JSON `null`. -/
def saveCoverCache (cache : CoverCache) : Json :=
  Json.obj (cache.map fun e =>
    (e.1, match e.2 with
          | some u => Json.str u
          | none => Json.null))

/-- Model of `loadCoverCache` (`app.js` lines 41–45): parse the stored
text and fall back to the empty object when the record is absent, fails
to parse, or parses to a falsy value (the `|| \x7b\x7d` fallback).
`stored` is the parse outcome, `none` meaning absent or unparseable.
Output of `saveCoverCache` is always a JSON object, the only case the
application ever stores. -/
def loadCoverCache (stored : Option Json) : CoverCache :=
  match stored with
  | some (Json.obj fields) =>
      fields.map fun e =>
        (e.1, match e.2 with
              | Json.str u => some u
              | _ => none)
  | _ => []

lemma lookup_append_single {α β : Type} [BEq α] [LawfulBEq α]
    (l : List (α × β)) (k : α) (v : β)
    (h : l.lookup k = none) : (l ++ [(k, v)]).lookup k = some v := by
  induction l with
  | nil => simp [List.lookup]
  | cons e t ih =>
      obtain ⟨a, b⟩ := e
      cases hk : k == a with
      | false =>
          simp only [List.cons_append, List.lookup_cons, hk] at h ⊢
          exact ih h
      | true => simp [List.lookup_cons, hk] at h

/-- After any call to `fetchCoverForBook`, the returned url is cached
under the book's composite key. -/
lemma fetch_caches_result (cache : CoverCache) (book : Book)
    (s1 s2 s3 : Option String) :
    (fetchCoverForBook cache book s1 s2 s3).cache.lookup (coverKey book)
      = some (fetchCoverForBook cache book s1 s2 s3).url := by
  unfold fetchCoverForBook
  rcases h : cache.lookup (coverKey book) with _ | v
  · rcases s1 with _ | u1
    · rcases s2 with _ | u2
      · simp [h, lookup_append_single _ _ _ h]
      · simp [h, lookup_append_single _ _ _ h]
    · simp [h, lookup_append_single _ _ _ h]
  · simp [h]

lemma fetch_hit (cache : CoverCache) (book : Book) (s1 s2 s3 : Option String)
    (v : Option String) (h : cache.lookup (coverKey book) = some v) :
    fetchCoverForBook cache book s1 s2 s3 = ⟨v, cache, 0⟩ := by
  unfold fetchCoverForBook
  simp [h]

/-- C2.  Cover-cache idempotence: (1) a call whose composite key is
already cached — even with the explicit null sentinel — returns the
cached value, leaves the cache unchanged and issues no network request;
(2) any call issues at most one round (≤ 3) of network attempts, and a
second completed call for the same book issues none and returns the
first call's value; (3) a cover cache — null sentinels included —
survives the `saveCoverCache`/`loadCoverCache` JSON round-trip
unchanged. -/
theorem fetchCover_idempotent :
    (∀ (cache : CoverCache) (book : Book) (s1 s2 s3 v : Option String),
      cache.lookup (coverKey book) = some v →
        fetchCoverForBook cache book s1 s2 s3 = ⟨v, cache, 0⟩) ∧
    (∀ (cache : CoverCache) (book : Book) (s1 s2 s3 t1 t2 t3 : Option String),
      (fetchCoverForBook cache book s1 s2 s3).requests ≤ 3 ∧
      fetchCoverForBook (fetchCoverForBook cache book s1 s2 s3).cache book t1 t2 t3
        = ⟨(fetchCoverForBook cache book s1 s2 s3).url,
           (fetchCoverForBook cache book s1 s2 s3).cache, 0⟩) ∧
    (∀ cache : CoverCache, loadCoverCache (some (saveCoverCache cache)) = cache) := by
  refine ⟨fetch_hit, fun cache book s1 s2 s3 t1 t2 t3 => ⟨?_, ?_⟩, fun cache => ?_⟩
  · unfold fetchCoverForBook
    rcases h : cache.lookup (coverKey book) with _ | v
    · rcases s1 with _ | u1 <;> rcases s2 with _ | u2 <;> simp [h]
    · simp [h]
  · exact fetch_hit _ book t1 t2 t3 _ (fetch_caches_result cache book s1 s2 s3)
  · unfold saveCoverCache loadCoverCache
    simp only [List.map_map]
    nth_rewrite 2 [show cache = cache.map id from (List.map_id cache).symm]
    apply List.map_congr_left
    intro e _
    obtain ⟨k, v⟩ := e
    rcases v with _ | u <;> simp

/-- Witness for C2: a concrete cache holding a null sentinel for the
sample book is hit without network traffic, and survives the JSON
round-trip. -/
theorem fetchCover_idempotent_witness :
    fetchCoverForBook [("Dune|||Frank Herbert", none)] sampleBook
        (some "http://x") none none
      = ⟨none, [("Dune|||Frank Herbert", none)], 0⟩ :=
  fetchCover_idempotent.1 [("Dune|||Frank Herbert", none)] sampleBook
    (some "http://x") none none none (by decide)

/-! Persistence and import/export (`app.js` lines 120–133 and
841–900).  `JSON.stringify` followed by `JSON.parse` is the identity on
the JSON values the application writes, so serialization is modelled by
the `Json` tree itself; `JSON.parse` of externally supplied text is
modelled by its outcome (`none` for a parse error). -/

/-- JSON encoding of a book: the object `JSON.stringify` produces for a
record built by `handleFormSubmit`, fields in construction order;
`Option` fields become JSON `null` when absent. -/
def bookToJson (b : Book) : Json :=
  Json.obj
    [("id", Json.str b.id),
     ("title", Json.str b.title),
     ("author", Json.str b.author),
     ("genre", Json.str b.genre),
     ("yearPublished", match b.yearPublished with
                       | some n => Json.num n
                       | none => Json.null),
     ("pageCount", match b.pageCount with
                   | some n => Json.num n
                   | none => Json.null),
     ("coverImage", Json.str b.coverImage),
     ("format", Json.str b.format),
     ("status", Json.str b.status),
     ("datePurchased", Json.str b.datePurchased),
     ("dateStarted", Json.str b.dateStarted),
     ("dateCompleted", Json.str b.dateCompleted),
     ("currentPage", match b.currentPage with
                     | some n => Json.num n
                     | none => Json.null),
     ("rating", match b.rating with
                | some n => Json.num n
                | none => Json.null),
     ("favorite", Json.bool b.favorite),
     ("tags", Json.arr (b.tags.map Json.str)),
     ("recommendedBy", Json.str b.recommendedBy),
     ("notes", Json.str b.notes),
     ("description", Json.str b.description),
     ("dateAdded", Json.str b.dateAdded)]

/-- String-valued property access on a parsed JSON object, as the
application reads it: a missing or non-string property behaves like the
empty string. -/
def getStr (fields : List (String × Json)) (key : String) : String :=
  match fields.lookup key with
  | some (Json.str s) => s
  | _ => ""

/-- Nullable-number property access: a missing, null or non-numeric
property reads as null. -/
def getNum (fields : List (String × Json)) (key : String) : Option Int :=
  match fields.lookup key with
  | some (Json.num n) => some n
  | _ => none

/-- Boolean property access: a missing or non-boolean property is
falsy. -/
def getBool (fields : List (String × Json)) (key : String) : Bool :=
  match fields.lookup key with
  | some (Json.bool b) => b
  | _ => false

/-- String-array property access, for `tags`. -/
def getStrList (fields : List (String × Json)) (key : String) : List String :=
  match fields.lookup key with
  | some (Json.arr xs) =>
      xs.filterMap fun j =>
        match j with
        | Json.str s => some s
        | _ => none
  | _ => []

/-- View of a parsed JSON value as a book record, modelling how the
application's code reads properties off an imported plain object:
absent properties behave as empty strings / null / false / empty
array. -/
def bookFromJson (j : Json) : Book :=
  match j with
  | Json.obj fields =>
      { id := getStr fields "id"
        title := getStr fields "title"
        author := getStr fields "author"
        genre := getStr fields "genre"
        yearPublished := getNum fields "yearPublished"
        pageCount := getNum fields "pageCount"
        coverImage := getStr fields "coverImage"
        format := getStr fields "format"
        status := getStr fields "status"
        datePurchased := getStr fields "datePurchased"
        dateStarted := getStr fields "dateStarted"
        dateCompleted := getStr fields "dateCompleted"
        currentPage := getNum fields "currentPage"
        rating := getNum fields "rating"
        favorite := getBool fields "favorite"
        tags := getStrList fields "tags"
        recommendedBy := getStr fields "recommendedBy"
        notes := getStr fields "notes"
        description := getStr fields "description"
        dateAdded := getStr fields "dateAdded" }
  | _ =>
      { id := "", title := "", author := "", genre := "",
        yearPublished := none, pageCount := none, coverImage := "",
        format := "", status := "", datePurchased := "", dateStarted := "",
        dateCompleted := "", currentPage := none, rating := none,
        favorite := false, tags := [], recommendedBy := "", notes := "",
        description := "", dateAdded := "" }

lemma bookFromJson_bookToJson (b : Book) : bookFromJson (bookToJson b) = b := by
  rcases b with
    ⟨id, title, author, genre, yearPublished, pageCount, coverImage, format,
     status, datePurchased, dateStarted, dateCompleted, currentPage, rating,
     favorite, tags, recommendedBy, notes, description, dateAdded⟩
  simp only [bookToJson, bookFromJson, getStr, getNum, getBool, getStrList,
    List.lookup]
  rcases yearPublished with _ | y <;> rcases pageCount with _ | p <;>
    rcases currentPage with _ | c <;> rcases rating with _ | r <;>
      simp [Function.comp_def]

/-- Application state relevant to import: the in-memory `books` array
and the collection persisted in local storage (`saveBooks` writes the
former over the latter, `app.js` lines 131–133). -/
structure AppState where
  books : List Book
  storedBooks : List Book
deriving Repr, DecidableEq

/-- Outcome of parsing the user-supplied import payload: nothing
supplied, `JSON.parse` threw, or a parsed JSON value. -/
inductive ImportInput where
  | empty : ImportInput
  | badJson : ImportInput
  | parsed (j : Json) : ImportInput
deriving Repr

/-- Model of `doImport` (`app.js` lines 860–900).  Parse failures and a
non-array root return the state unchanged with the corresponding toast
message; otherwise replace mode adopts the imported array wholesale
while merge mode appends only those imported entries whose id is not
already present, and the result is persisted via `saveBooks`. -/
def doImport (st : AppState) (input : ImportInput) (replace : Bool) :
    AppState × String :=
  match input with
  | ImportInput.empty => (st, "No data to import")
  | ImportInput.badJson => (st, "Import failed — invalid JSON")
  | ImportInput.parsed j =>
      match j with
      | Json.arr xs =>
          let data := xs.map bookFromJson
          let newBooks :=
            if replace then data
            else data.filter fun d => !(st.books.any fun b => b.id == d.id)
          let books := if replace then newBooks else st.books ++ newBooks
          (⟨books, books⟩, "Imported " ++ toString xs.length ++ " books")
      | _ => (st, "Invalid format — expected an array of books")

/-- Model of `exportBooks` (`app.js` lines 841–851): the JSON document
`JSON.stringify(books, null, 2)` written to the downloaded file. -/
def exportBooks (books : List Book) : Json :=
  Json.arr (books.map bookToJson)

/-- Model of `loadBooks` (`app.js` lines 122–129): read the stored
record, return the fallback empty array when it is absent or the empty
string (both falsy) or when `JSON.parse` throws, and otherwise return
the parsed value as-is, with no shape validation.  `stored` is the raw
stored text (`none` when absent) and `parse` models `JSON.parse`
(`none` when it would throw). -/
def loadBooks (stored : Option String) (parse : String → Option Json) : Json :=
  match stored with
  | none => Json.arr []
  | some s =>
      if s = "" then Json.arr []
      else
        match parse s with
        | none => Json.arr []
        | some v => v

lemma decode_encode_list (l : List Book) :
    (l.map bookToJson).map bookFromJson = l := by
  rw [List.map_map]
  nth_rewrite 2 [show l = l.map id from (List.map_id l).symm]
  exact List.map_congr_left fun b _ => bookFromJson_bookToJson b

/-- C3.  Import-merge: the current collection survives as an unchanged
prefix of the result, and an imported book whose id is already present
adds no entry with that id (the count of books carrying that id is
unchanged); import-replace with the empty array yields the empty
collection in memory and persists it as such. -/
theorem import_merge_and_replace_empty :
    (∀ books stored data : List Book,
      (doImport ⟨books, stored⟩
          (ImportInput.parsed (Json.arr (data.map bookToJson))) false).1.books.take
          books.length = books ∧
      (∀ d ∈ data, (∃ b ∈ books, b.id = d.id) →
        ((doImport ⟨books, stored⟩
            (ImportInput.parsed (Json.arr (data.map bookToJson))) false).1.books.countP
            (fun b => b.id == d.id))
          = books.countP (fun b => b.id == d.id))) ∧
    (∀ books stored : List Book,
      doImport ⟨books, stored⟩ (ImportInput.parsed (Json.arr [])) true
        = (⟨[], []⟩, "Imported 0 books")) := by
  constructor
  · intro books stored data
    simp only [doImport, decode_encode_list, Bool.false_eq_true, if_false]
    constructor
    · exact List.take_left books _
    · intro d hd hex
      obtain ⟨b, hb, hid⟩ := hex
      rw [List.countP_append]
      have hzero :
          (data.filter fun x => !(books.any fun bb => bb.id == x.id)).countP
            (fun x => x.id == d.id) = 0 := by
        rw [List.countP_eq_zero]
        intro x hx
        rw [List.mem_filter] at hx
        intro hpx
        have hxid : x.id = d.id := by simpa using hpx
        have : books.any (fun bb => bb.id == x.id) = true := by
          rw [List.any_eq_true]
          exact ⟨b, hb, by simp [hid, hxid]⟩
        simp [this] at hx
      omega
  · intro books stored
    rfl

/-- Witness for C3 at a concrete collection and import payload. -/
theorem import_merge_and_replace_empty_witness :
    ((doImport ⟨[sampleBook], [sampleBook]⟩
        (ImportInput.parsed (Json.arr ([sampleBook].map bookToJson))) false).1.books.countP
        (fun b => b.id == sampleBook.id))
      = ([sampleBook].countP fun b => b.id == sampleBook.id) :=
  ((import_merge_and_replace_empty.1 [sampleBook] [sampleBook] [sampleBook]).2
    sampleBook (by decide) ⟨sampleBook, by decide, rfl⟩)

/-- C4.  Round-trip: exporting the collection and importing the
exported document in replace mode reproduces an identical collection —
same ids, same field values, same order — and persists it. -/
theorem export_import_roundtrip (books stored : List Book) :
    doImport ⟨books, stored⟩ (ImportInput.parsed (exportBooks books)) true
      = (⟨books, books⟩, "Imported " ++ toString books.length ++ " books") := by
  simp [doImport, exportBooks, decode_encode_list, Function.comp_def,
    bookFromJson_bookToJson]

/-- C9.  Import failure atomicity: when `JSON.parse` fails, or the
parsed root is not an array, `doImport` reports the corresponding toast
message and leaves both the in-memory and the persisted collection
exactly as they were. -/
theorem import_failure_no_state_change :
    (∀ (st : AppState) (replace : Bool),
      doImport st ImportInput.badJson replace
        = (st, "Import failed — invalid JSON")) ∧
    (∀ (st : AppState) (replace : Bool) (j : Json),
      (∀ xs, j ≠ Json.arr xs) →
      doImport st (ImportInput.parsed j) replace
        = (st, "Invalid format — expected an array of books")) := by
  refine ⟨fun st replace => rfl, fun st replace j h => ?_⟩
  cases j with
  | arr xs => exact absurd rfl (h xs)
  | _ => rfl

/-- Witness for C9 at a concrete state and a non-array root. -/
theorem import_failure_no_state_change_witness :
    doImport ⟨[sampleBook], []⟩ (ImportInput.parsed (Json.num 5)) false
      = (⟨[sampleBook], []⟩, "Invalid format — expected an array of books") :=
  import_failure_no_state_change.2 ⟨[sampleBook], []⟩ false (Json.num 5)
    (fun xs h => by cases h)

/-- C10.  `loadBooks` returns the fallback empty array when the stored
record is absent, is the empty string, or fails to parse; when the
stored text parses, the parsed value — array or not — is returned
as-is with no shape validation. -/
theorem loadBooks_fallback_and_no_validation (parse : String → Option Json) :
    loadBooks none parse = Json.arr [] ∧
    loadBooks (some "") parse = Json.arr [] ∧
    (∀ s, s ≠ "" → parse s = none → loadBooks (some s) parse = Json.arr []) ∧
    (∀ s v, s ≠ "" → parse s = some v → loadBooks (some s) parse = v) := by
  refine ⟨rfl, rfl, fun s hs hp => ?_, fun s v hs hp => ?_⟩
  · simp [loadBooks, hs, hp]
  · simp [loadBooks, hs, hp]

/-- Witness for C10: with a parse oracle sending `"null"` to JSON
`null`, the stored text `"null"` is returned as-is (not replaced by the
empty collection), and an unparseable record falls back to the empty
array. -/
theorem loadBooks_fallback_witness :
    loadBooks (some "null")
        (fun s => if s = "null" then some Json.null else none)
      = Json.null ∧
    loadBooks (some "x")
        (fun s => if s = "null" then some Json.null else none)
      = Json.arr [] :=
  ⟨(loadBooks_fallback_and_no_validation _).2.2.2 "null" Json.null
      (by decide) (by simp),
   (loadBooks_fallback_and_no_validation _).2.2.1 "x" (by decide) (by simp)⟩

/-! Sorting (`app.js` lines 503–512).  `result.sort(comparator)` uses
the ECMAScript stable sort; for the consistent (total-preorder)
comparators the app passes, every stable sort computes the same list,
modelled here by a left-to-right insertion sort that places each
element after all its ties. -/

/-- Insertion into an ordered accumulator: the new element goes after
every element it ties with or follows. -/
def insertOrdered {α : Type} (le : α → α → Bool) (x : α) : List α → List α
  | [] => [x]
  | y :: ys => if le y x then y :: insertOrdered le x ys else x :: y :: ys

/-- Left fold of `insertOrdered` over the input. -/
def stableSortAux {α : Type} (le : α → α → Bool) : List α → List α → List α
  | acc, [] => acc
  | acc, x :: xs => stableSortAux le (insertOrdered le x acc) xs

/-- Stable sort with respect to the boolean relation `le`
(`le a b` meaning `comparator(a, b) <= 0`). -/
def stableSort {α : Type} (le : α → α → Bool) (l : List α) : List α :=
  stableSortAux le [] l

lemma insertOrdered_perm {α : Type} (le : α → α → Bool) (x : α) (l : List α) :
    (insertOrdered le x l).Perm (x :: l) := by
  induction l with
  | nil => exact List.Perm.refl _
  | cons y ys ih =>
      cases hle : le y x with
      | true =>
          simp only [insertOrdered, hle, if_true]
          exact (List.Perm.cons y ih).trans (List.Perm.swap x y ys)
      | false =>
          simp only [insertOrdered, hle, Bool.false_eq_true, if_false]
          exact List.Perm.refl _

lemma insertOrdered_pairwise {α : Type} (le : α → α → Bool)
    (htot : ∀ a b, le a b = true ∨ le b a = true)
    (htrans : ∀ a b c, le a b = true → le b c = true → le a c = true)
    (x : α) (l : List α) (h : l.Pairwise fun a b => le a b = true) :
    (insertOrdered le x l).Pairwise fun a b => le a b = true := by
  induction l with
  | nil => simp [insertOrdered]
  | cons y ys ih =>
      rw [List.pairwise_cons] at h
      obtain ⟨hy, hys⟩ := h
      cases hle : le y x with
      | true =>
          simp only [insertOrdered, hle, if_true]
          rw [List.pairwise_cons]
          refine ⟨fun z hz => ?_, ih hys⟩
          rcases List.mem_cons.mp ((insertOrdered_perm le x ys).mem_iff.mp hz) with
            rfl | hz2
          · exact hle
          · exact hy z hz2
      | false =>
          simp only [insertOrdered, hle, Bool.false_eq_true, if_false]
          have hxy : le x y = true := by
            rcases htot x y with h | h
            · exact h
            · rw [h] at hle; cases hle
          rw [List.pairwise_cons]
          refine ⟨fun z hz => ?_, List.pairwise_cons.mpr ⟨hy, hys⟩⟩
          rcases List.mem_cons.mp hz with rfl | hz2
          · exact hxy
          · exact htrans x y z hxy (hy z hz2)

lemma stableSortAux_pairwise {α : Type} (le : α → α → Bool)
    (htot : ∀ a b, le a b = true ∨ le b a = true)
    (htrans : ∀ a b c, le a b = true → le b c = true → le a c = true)
    (rest : List α) :
    ∀ acc : List α, acc.Pairwise (fun a b => le a b = true) →
      (stableSortAux le acc rest).Pairwise fun a b => le a b = true := by
  induction rest with
  | nil => intro acc hacc; exact hacc
  | cons x xs ih =>
      intro acc hacc
      exact ih _ (insertOrdered_pairwise le htot htrans x acc hacc)

lemma stableSort_pairwise {α : Type} (le : α → α → Bool)
    (htot : ∀ a b, le a b = true ∨ le b a = true)
    (htrans : ∀ a b c, le a b = true → le b c = true → le a c = true)
    (l : List α) :
    (stableSort le l).Pairwise fun a b => le a b = true :=
  stableSortAux_pairwise le htot htrans l [] (List.Pairwise.nil)

lemma stableSortAux_perm {α : Type} (le : α → α → Bool) (rest : List α) :
    ∀ acc : List α, (stableSortAux le acc rest).Perm (acc ++ rest) := by
  induction rest with
  | nil => intro acc; simp [stableSortAux]
  | cons x xs ih =>
      intro acc
      have h1 : (stableSortAux le acc (x :: xs)).Perm (insertOrdered le x acc ++ xs) :=
        ih (insertOrdered le x acc)
      have h2 : (insertOrdered le x acc ++ xs).Perm ((x :: acc) ++ xs) :=
        List.Perm.append_right xs (insertOrdered_perm le x acc)
      exact (h1.trans h2).trans List.perm_middle.symm

lemma stableSort_perm {α : Type} (le : α → α → Bool) (l : List α) :
    (stableSort le l).Perm l := by
  simpa using stableSortAux_perm le l []

lemma filter_insertOrdered_pos {α : Type} (le : α → α → Bool) (p : α → Bool)
    (htrans : ∀ a b c, le a b = true → le b c = true → le a c = true)
    (x : α) (l : List α) (hx : p x = true)
    (hl : l.Pairwise fun a b => le a b = true)
    (htie : ∀ y ∈ l, p y = true → le y x = true) :
    (insertOrdered le x l).filter p = l.filter p ++ [x] := by
  induction l with
  | nil => simp [insertOrdered, hx]
  | cons y ys ih =>
      rw [List.pairwise_cons] at hl
      obtain ⟨hy, hys⟩ := hl
      cases hle : le y x with
      | true =>
          have ihs := ih hys fun z hz hpz => htie z (List.mem_cons_of_mem y hz) hpz
          cases hpy : p y with
          | true => simp [insertOrdered, hle, List.filter_cons, hpy, ihs]
          | false => simp [insertOrdered, hle, List.filter_cons, hpy, ihs]
      | false =>
          have hpy : p y = false := by
            cases hpy : p y with
            | true =>
                have h2 := htie y (List.mem_cons_self y ys) hpy
                rw [hle] at h2; cases h2
            | false => rfl
          have hfys : ys.filter p = [] := by
            rw [List.filter_eq_nil_iff]
            intro z hz hpz
            have hzx := htie z (List.mem_cons_of_mem y hz) hpz
            have hyx := htrans y z x (hy z hz) hzx
            rw [hle] at hyx; cases hyx
          simp [insertOrdered, hle, List.filter_cons, hx, hpy, hfys]

lemma filter_insertOrdered_neg {α : Type} (le : α → α → Bool) (p : α → Bool)
    (x : α) (l : List α) (hx : p x = false) :
    (insertOrdered le x l).filter p = l.filter p := by
  induction l with
  | nil => simp [insertOrdered, hx]
  | cons y ys ih =>
      cases hle : le y x with
      | true => simp [insertOrdered, hle, List.filter_cons, ih]
      | false => simp [insertOrdered, hle, List.filter_cons, hx]

lemma stableSortAux_filter {α : Type} (le : α → α → Bool) (p : α → Bool)
    (htot : ∀ a b, le a b = true ∨ le b a = true)
    (htrans : ∀ a b c, le a b = true → le b c = true → le a c = true)
    (htie : ∀ a b, p a = true → p b = true → le a b = true)
    (rest : List α) :
    ∀ acc : List α, acc.Pairwise (fun a b => le a b = true) →
      (stableSortAux le acc rest).filter p = acc.filter p ++ rest.filter p := by
  induction rest with
  | nil => intro acc _; simp [stableSortAux]
  | cons x xs ih =>
      intro acc hacc
      have hacc2 := insertOrdered_pairwise le htot htrans x acc hacc
      have step : stableSortAux le acc (x :: xs)
          = stableSortAux le (insertOrdered le x acc) xs := rfl
      rw [step, ih _ hacc2]
      cases hx : p x with
      | true =>
          rw [filter_insertOrdered_pos le p htrans x acc hx hacc
            fun y _ hpy => htie y x hpy hx]
          simp [List.filter_cons, hx]
      | false =>
          rw [filter_insertOrdered_neg le p x acc hx]
          simp [List.filter_cons, hx]

/-- Stability of `stableSort`: the subsequence of elements satisfying a
predicate whose members pairwise tie is exactly the input's. -/
lemma stableSort_filter {α : Type} (le : α → α → Bool) (p : α → Bool)
    (htot : ∀ a b, le a b = true ∨ le b a = true)
    (htrans : ∀ a b c, le a b = true → le b c = true → le a c = true)
    (htie : ∀ a b, p a = true → p b = true → le a b = true)
    (l : List α) : (stableSort le l).filter p = l.filter p := by
  simpa using stableSortAux_filter le p htot htrans htie l [] List.Pairwise.nil

/-- Model of `String.prototype.localeCompare` as used for the `title`,
`author` and `dateAdded` sort keys: a negative, zero or positive result
according to lexicographic comparison. -/
def localeCompare (s t : String) : Int :=
  if s < t then -1 else if t < s then 1 else 0

/-- JavaScript `x || 0` on a nullable number (`b.rating || 0`). -/
def jsOr0 (o : Option Int) : Int := o.getD 0

/-- Comparator selected by `filterState.sort` in `getFilteredBooks`
(`app.js` lines 503–512): title and author ascending by string
comparison, rating and yearPublished descending numerically with null
coerced to 0, and dateAdded (the `default` case) descending by string
comparison. -/
def jsCmp (sortBy : String) : Book → Book → Int :=
  match sortBy with
  | "title" => fun a b => localeCompare a.title b.title
  | "author" => fun a b => localeCompare a.author b.author
  | "rating" => fun a b => jsOr0 b.rating - jsOr0 a.rating
  | "yearPublished" => fun a b => jsOr0 b.yearPublished - jsOr0 a.yearPublished
  | _ => fun a b => localeCompare b.dateAdded a.dateAdded

/-- Order relation induced by the comparator, `comparator(a, b) <= 0`. -/
def sortLe (sortBy : String) (a b : Book) : Bool :=
  decide (jsCmp sortBy a b ≤ 0)

/-- Sorting step of `getFilteredBooks`: the ECMAScript stable
`Array.prototype.sort` under the selected comparator. -/
def sortBooks (sortBy : String) (l : List Book) : List Book :=
  stableSort (sortLe sortBy) l

lemma localeCompare_nonpos_iff (s t : String) : localeCompare s t ≤ 0 ↔ s ≤ t := by
  rcases lt_trichotomy s t with h | h | h
  · simp [localeCompare, h, le_of_lt h]
  · simp [localeCompare, h, lt_irrefl]
  · simp [localeCompare, asymm h, h, not_le.mpr h]

lemma localeCompare_eq_zero_iff (s t : String) : localeCompare s t = 0 ↔ s = t := by
  rcases lt_trichotomy s t with h | h | h
  · simp [localeCompare, h, ne_of_lt h]
  · simp [localeCompare, h, lt_irrefl]
  · simp [localeCompare, asymm h, h, (ne_of_lt h).symm]

/-- Consistency (total-preorder) facts about a comparator: totality and
transitivity of `comparator <= 0`, and transitivity of ties through a
common element. -/
structure IsConsistentCmp (cmp : Book → Book → Int) : Prop where
  total : ∀ a b, cmp a b ≤ 0 ∨ cmp b a ≤ 0
  nonposTrans : ∀ a b c, cmp a b ≤ 0 → cmp b c ≤ 0 → cmp a c ≤ 0
  tie : ∀ a x y, cmp a x = 0 → cmp a y = 0 → cmp x y = 0

lemma consistent_strAsc (f : Book → String) :
    IsConsistentCmp (fun a b => localeCompare (f a) (f b)) := by
  refine ⟨fun a b => ?_, fun a b c => ?_, fun a x y => ?_⟩
  · rw [localeCompare_nonpos_iff, localeCompare_nonpos_iff]
    exact le_total _ _
  · rw [localeCompare_nonpos_iff, localeCompare_nonpos_iff, localeCompare_nonpos_iff]
    exact le_trans
  · rw [localeCompare_eq_zero_iff, localeCompare_eq_zero_iff, localeCompare_eq_zero_iff]
    intro h1 h2
    rw [← h1, h2]

lemma consistent_strDesc (f : Book → String) :
    IsConsistentCmp (fun a b => localeCompare (f b) (f a)) := by
  refine ⟨fun a b => ?_, fun a b c => ?_, fun a x y => ?_⟩
  · rw [localeCompare_nonpos_iff, localeCompare_nonpos_iff]
    exact (le_total _ _).symm
  · rw [localeCompare_nonpos_iff, localeCompare_nonpos_iff, localeCompare_nonpos_iff]
    exact fun h1 h2 => le_trans h2 h1
  · rw [localeCompare_eq_zero_iff, localeCompare_eq_zero_iff, localeCompare_eq_zero_iff]
    intro h1 h2
    rw [h1, ← h2]

lemma consistent_numDesc (f : Book → Int) :
    IsConsistentCmp (fun a b => f b - f a) := by
  refine ⟨fun a b => ?_, fun a b c => ?_, fun a x y => ?_⟩ <;> omega

lemma jsCmp_consistent (sortBy : String) : IsConsistentCmp (jsCmp sortBy) := by
  unfold jsCmp
  split
  · exact consistent_strAsc _
  · exact consistent_strAsc _
  · exact consistent_numDesc _
  · exact consistent_numDesc _
  · exact consistent_strDesc _

lemma sortLe_true_iff (sortBy : String) (a b : Book) :
    sortLe sortBy a b = true ↔ jsCmp sortBy a b ≤ 0 := by
  simp [sortLe]

lemma sortLe_total (sortBy : String) :
    ∀ a b, sortLe sortBy a b = true ∨ sortLe sortBy b a = true := by
  intro a b
  rw [sortLe_true_iff, sortLe_true_iff]
  exact (jsCmp_consistent sortBy).total a b

lemma sortLe_trans (sortBy : String) :
    ∀ a b c, sortLe sortBy a b = true → sortLe sortBy b c = true →
      sortLe sortBy a c = true := by
  intro a b c
  rw [sortLe_true_iff, sortLe_true_iff, sortLe_true_iff]
  exact (jsCmp_consistent sortBy).nonposTrans a b c

lemma jsCmp_rating (a b : Book) :
    jsCmp "rating" a b = jsOr0 b.rating - jsOr0 a.rating := rfl

/-- C6.  Sorting by rating descending places every unrated book after
every rated one: when all ratings are null or in 1–5, a rated book
never appears after an unrated one.  The sort is stable: for every
rating value, the books carrying exactly that rating keep their input
order; and under every sort key, the books tying with any fixed book
under the comparator keep their input order. -/
theorem sort_rating_desc_and_stable :
    (∀ l : List Book,
      (∀ b ∈ l, b.rating = none ∨ ∃ r, b.rating = some r ∧ 1 ≤ r ∧ r ≤ 5) →
      ∀ i j : Fin (sortBooks "rating" l).length, i < j →
        ((sortBooks "rating" l).get j).rating.isSome = true →
        ((sortBooks "rating" l).get i).rating.isSome = true) ∧
    (∀ (l : List Book) (v : Option Int),
      (sortBooks "rating" l).filter (fun b => b.rating == v)
        = l.filter fun b => b.rating == v) ∧
    (∀ (sortBy : String) (a : Book) (l : List Book),
      (sortBooks sortBy l).filter (fun x => jsCmp sortBy a x == 0)
        = l.filter fun x => jsCmp sortBy a x == 0) := by
  refine ⟨fun l hl i j hij hj => ?_, fun l v => ?_, fun sortBy a l => ?_⟩
  · have hpw : (sortBooks "rating" l).Pairwise
        (fun a b => sortLe "rating" a b = true) :=
      stableSort_pairwise (sortLe "rating")
        (sortLe_total "rating") (sortLe_trans "rating") l
    have hle := List.pairwise_iff_get.mp hpw i j hij
    rw [sortLe_true_iff, jsCmp_rating] at hle
    have hperm : (sortBooks "rating" l).Perm l := stableSort_perm _ l
    have hmem : ((sortBooks "rating" l).get j) ∈ l :=
      hperm.mem_iff.mp (List.get_mem _ _ j.isLt)
    rcases hl _ hmem with hnone | ⟨r, hsome, hr1, _⟩
    · rw [hnone] at hj; cases hj
    · have hkey : (1 : Int) ≤ jsOr0 ((sortBooks "rating" l).get i).rating := by
        rw [hsome] at hle
        simp only [jsOr0, Option.getD_some] at hle ⊢
        omega
      rcases hopt : ((sortBooks "rating" l).get i).rating with _ | r2
      · rw [hopt] at hkey
        simp [jsOr0] at hkey
      · rfl
  · apply stableSort_filter _ _ (sortLe_total "rating") (sortLe_trans "rating")
    intro a b ha hb
    rw [sortLe_true_iff, jsCmp_rating]
    have h1 : a.rating = v := by simpa using ha
    have h2 : b.rating = v := by simpa using hb
    rw [h1, h2]
    omega
  · apply stableSort_filter _ _ (sortLe_total sortBy) (sortLe_trans sortBy)
    intro x y hx hy
    rw [sortLe_true_iff]
    have h1 : jsCmp sortBy a x = 0 := by simpa using hx
    have h2 : jsCmp sortBy a y = 0 := by simpa using hy
    rw [(jsCmp_consistent sortBy).tie a x y h1 h2]

/-- Concrete list used by the C6 witness: an unrated book first, then
two books rated 3. -/
def ratedSampleList : List Book :=
  [{ sampleBook with id := "u", rating := none },
   { sampleBook with id := "r1", rating := some 3 },
   { sampleBook with id := "r2", rating := some 3 }]

/-- Witness for C6 on `ratedSampleList`: position 0 of the sorted
output is rated because position 1 is, and the two books rated 3 keep
their input order. -/
theorem sort_rating_desc_and_stable_witness :
    ((sortBooks "rating" ratedSampleList).get
        ⟨0, by decide⟩).rating.isSome = true ∧
    (sortBooks "rating" ratedSampleList).filter (fun b => b.rating == some 3)
      = [{ sampleBook with id := "r1", rating := some 3 },
         { sampleBook with id := "r2", rating := some 3 }] :=
  ⟨sort_rating_desc_and_stable.1 ratedSampleList (by decide)
      ⟨0, by decide⟩ ⟨1, by decide⟩ (by decide) (by decide),
   by
    rw [sort_rating_desc_and_stable.2.1 ratedSampleList (some 3)]
    decide⟩

/-! Filtering (`app.js` lines 485–515).  The search text is lowercased
and trimmed, then each book must pass every active predicate; the
JavaScript string operations are modelled character-wise. -/

/-- JavaScript `String.prototype.toLowerCase`, character by
character. -/
def jsToLower (s : String) : String := ⟨s.data.map Char.toLower⟩

/-- JavaScript `String.prototype.trim`: strip leading and trailing
whitespace. -/
def jsTrim (s : String) : String :=
  ⟨((s.data.dropWhile Char.isWhitespace).reverse.dropWhile
      Char.isWhitespace).reverse⟩

/-- Character-list substring test used to model
`String.prototype.includes`. -/
def strInfixCheck (needle : List Char) : List Char → Bool
  | [] => needle.isEmpty
  | c :: cs => needle.isPrefixOf (c :: cs) || strInfixCheck needle cs

/-- JavaScript `hay.includes(needle)`. -/
def jsIncludes (hay needle : String) : Bool := strInfixCheck needle.data hay.data

/-- State of the rating filter pill: inactive (the empty-string value),
the `'none'` sentinel selecting books with no rating set, or a numeric
value selecting an exact rating. -/
inductive RatingFilter where
  | off : RatingFilter
  | noneSet : RatingFilter
  | value (n : Int) : RatingFilter
deriving Repr, DecidableEq

/-- The `filterState` record (`app.js` lines 24–30) together with the
search box contents; empty strings mean the corresponding filter is
inactive.  Numeric rating values carry the result of the `parseInt`
the code applies to the pill value. -/
structure FilterConfig where
  search : String
  genre : String
  status : String
  format : String
  rating : RatingFilter
  sort : String
deriving Repr, DecidableEq

/-- Filter predicate of `getFilteredBooks` (`app.js` lines 493–501),
transcribed early-return by early-return: lowercased-trimmed query must
occur in the lowercased title or author; genre, status and format are
exact matches when active; the `'none'` rating sentinel rejects books
with a rating set; a numeric rating filter rejects books whose rating
differs. -/
def bookMatches (cfg : FilterConfig) (b : Book) : Bool :=
  let query := jsTrim (jsToLower cfg.search)
  if query != "" && !(jsIncludes (jsToLower b.title) query)
      && !(jsIncludes (jsToLower b.author) query) then false
  else if cfg.genre != "" && b.genre != cfg.genre then false
  else if cfg.status != "" && b.status != cfg.status then false
  else if cfg.format != "" && b.format != cfg.format then false
  else if (match cfg.rating with
           | RatingFilter.noneSet => b.rating.isSome
           | _ => false) then false
  else if (match cfg.rating with
           | RatingFilter.value n => b.rating != some n
           | _ => false) then false
  else true

/-- Full `getFilteredBooks` pipeline: filter, then stable sort by the
configured key. -/
def getFilteredBooks (cfg : FilterConfig) (books : List Book) : List Book :=
  sortBooks cfg.sort (books.filter (bookMatches cfg))

/-- Spec-side filter predicate, written as the specification phrases
it: the conjunction (AND) of all active predicates — case-insensitive
substring match on title OR author, exact equality on genre, status and
format, and the two rating modes.  To be compared with `bookMatches`,
which transcribes the code. -/
def bookMatchesSpec (cfg : FilterConfig) (b : Book) : Bool :=
  let query := jsTrim (jsToLower cfg.search)
  (query == "" || jsIncludes (jsToLower b.title) query
    || jsIncludes (jsToLower b.author) query) &&
  (cfg.genre == "" || b.genre == cfg.genre) &&
  (cfg.status == "" || b.status == cfg.status) &&
  (cfg.format == "" || b.format == cfg.format) &&
  (match cfg.rating with
   | RatingFilter.off => true
   | RatingFilter.noneSet => !b.rating.isSome
   | RatingFilter.value n => b.rating == some n)

lemma matchChain (c1 t u g1 g2 s1 s2 f1 f2 r1 r2 : Bool) :
    (if c1 && !t && !u then false
     else if g1 && g2 then false
     else if s1 && s2 then false
     else if f1 && f2 then false
     else if r1 then false
     else if r2 then false
     else true)
    = ((!c1 || t || u) && (!g1 || !g2) && (!s1 || !s2) && (!f1 || !f2) &&
        (!r1 && !r2)) := by
  revert c1 t u g1 g2 s1 s2 f1 f2 r1 r2
  decide

/-- C7.  The filter of `getFilteredBooks` is exactly the AND of the
active predicates — substring on title or author, exact genre, status
and format equality, and the two rating modes, where the `'none'`
sentinel selects exactly the books with no rating and a numeric value
selects exactly the books with that rating; and on the concrete
scenario, config `rating = 'none'` against a null-rated and a 3-rated
book returns only the former. -/
theorem filter_is_and_of_predicates :
    (∀ (cfg : FilterConfig) (b : Book), bookMatches cfg b = bookMatchesSpec cfg b) ∧
    getFilteredBooks ⟨"", "", "", "", RatingFilter.noneSet, "dateAdded"⟩
        [{ sampleBook with rating := none }, { sampleBook with rating := some 3 }]
      = [{ sampleBook with rating := none }] := by
  constructor
  · intro cfg b
    rcases cfg with ⟨search, genre, status, format, rating, sort⟩
    rcases rating with _ | _ | n <;>
      simp only [bookMatches, bookMatchesSpec] <;>
      rw [matchChain] <;>
      simp [bne, Bool.not_not, Bool.and_assoc]
  · decide

/-! CRUD operations (`app.js` lines 598–704 and 742–783). -/

/-- Values read from the add/edit form, after the `trim`/`parseInt`
coercions `handleFormSubmit` applies to the raw input fields. -/
structure FormData where
  title : String
  author : String
  genre : String
  yearPublished : Option Int
  pageCount : Option Int
  coverImage : String
  format : String
  status : String
  datePurchased : String
  dateStarted : String
  dateCompleted : String
  currentPage : Option Int
  rating : Option Int
  favorite : Bool
  tags : List String
  recommendedBy : String
  notes : String
  description : String
deriving Repr, DecidableEq

/-- The `bookData` record `handleFormSubmit` builds (`app.js` lines
747–768): in edit mode (`formId` non-empty) it keeps the edited book's
id and its original `dateAdded` (falling back to today when the
original is falsy); in add mode it takes the freshly generated id and
today's date. -/
def buildBookData (books : List Book) (formId newId : String) (f : FormData)
    (todayStr : String) : Book where
  id := if formId != "" then formId else newId
  title := f.title
  author := f.author
  genre := f.genre
  yearPublished := f.yearPublished
  pageCount := f.pageCount
  coverImage := f.coverImage
  format := f.format
  status := f.status
  datePurchased := f.datePurchased
  dateStarted := f.dateStarted
  dateCompleted := f.dateCompleted
  currentPage := f.currentPage
  rating := f.rating
  favorite := f.favorite
  tags := f.tags
  recommendedBy := f.recommendedBy
  notes := f.notes
  description := f.description
  dateAdded :=
    if formId != "" then
      match books.find? (fun b => b.id == formId) with
      | some b => if b.dateAdded == "" then todayStr else b.dateAdded
      | none => todayStr
    else todayStr

/-- Model of `handleFormSubmit` (`app.js` lines 742–783): in edit mode
replace the entry at `findIndex(b => b.id === id)` (no change when the
id is absent); in add mode push the new record. -/
def handleFormSubmit (books : List Book) (formId newId : String) (f : FormData)
    (todayStr : String) : List Book :=
  let bookData := buildBookData books formId newId f todayStr
  if formId != "" then
    match books.findIdx? (fun b => b.id == formId) with
    | some idx => books.set idx bookData
    | none => books
  else books ++ [bookData]

/-- Model of the detail-modal status change (`app.js` lines 678–684):
`books.find(b => b.id === id)` followed by mutating that object's
`status` field in place — the first matching entry gets the new status,
everything else is untouched. -/
def changeStatus (id newStatus : String) : List Book → List Book
  | [] => []
  | b :: bs =>
      if b.id == id then { b with status := newStatus } :: bs
      else b :: changeStatus id newStatus bs

/-- Model of the delete action (`app.js` line 693):
`books.filter(b => b.id !== id)`. -/
def deleteBook (books : List Book) (id : String) : List Book :=
  books.filter fun b => b.id != id

/-- Replacement of the first entry satisfying `p` — the combined effect
of `findIndex` followed by an index assignment. -/
def replaceFirstWith (p : Book → Bool) (nb : Book) : List Book → List Book
  | [] => []
  | b :: bs => if p b then nb :: bs else b :: replaceFirstWith p nb bs

lemma findIdx_set_eq_replaceFirst (p : Book → Bool) (nb : Book) (l : List Book) :
    (match l.findIdx? p with
     | some idx => l.set idx nb
     | none => l) = replaceFirstWith p nb l := by
  induction l with
  | nil => rfl
  | cons b bs ih =>
      cases hp : p b with
      | true => simp [List.findIdx?_cons, hp, replaceFirstWith]
      | false =>
          rw [List.findIdx?_cons]
          simp only [hp, Bool.false_eq_true, if_false, List.findIdx?_succ]
          have step : replaceFirstWith p nb (b :: bs)
              = b :: replaceFirstWith p nb bs := by
            simp [replaceFirstWith, hp]
          rw [step, ← ih]
          rcases h : bs.findIdx? p with _ | idx <;> rfl

lemma replaceFirst_decomp (p : Book → Bool) (nb : Book) (l : List Book) (b : Book)
    (h : l.find? p = some b) :
    ∃ l1 l2 : List Book, l = l1 ++ b :: l2 ∧
      replaceFirstWith p nb l = l1 ++ nb :: l2 := by
  induction l with
  | nil => simp [List.find?] at h
  | cons x xs ih =>
      cases hp : p x with
      | true =>
          rw [List.find?_cons, hp] at h
          obtain rfl : x = b := by simpa using h
          exact ⟨[], xs, rfl, by simp [replaceFirstWith, hp]⟩
      | false =>
          rw [List.find?_cons, hp] at h
          obtain ⟨l1, l2, h1, h2⟩ := ih h
          exact ⟨x :: l1, l2, by rw [h1]; rfl, by simp [replaceFirstWith, hp, h2]⟩

/-- C8.  Editing a book keeps its creation date: with the edited book
present (and its `dateAdded` set, as creation always sets it),
`handleFormSubmit` replaces exactly that entry, and the replacement's
`dateAdded` equals the original's.  Changing status touches the status
field only: every position of the result holds either the original
record or that record with just `status` replaced. -/
theorem edit_keeps_dateAdded_and_status_only :
    (∀ (books : List Book) (formId newId : String) (f : FormData)
        (todayStr : String) (b : Book),
      formId ≠ "" →
      books.find? (fun x => x.id == formId) = some b →
      b.dateAdded ≠ "" →
      ∃ l1 l2 : List Book,
        books = l1 ++ b :: l2 ∧
        handleFormSubmit books formId newId f todayStr
          = l1 ++ buildBookData books formId newId f todayStr :: l2 ∧
        (buildBookData books formId newId f todayStr).dateAdded = b.dateAdded) ∧
    (∀ (books : List Book) (id ns : String) (i : Nat) (b : Book),
      books[i]? = some b →
        (changeStatus id ns books)[i]? = some b ∨
        (changeStatus id ns books)[i]? = some { b with status := ns }) := by
  constructor
  · intro books formId newId f todayStr b hne hfind hdate
    have hbne : (formId != "") = true := by simpa using hne
    obtain ⟨l1, l2, h1, h2⟩ :=
      replaceFirst_decomp (fun x => x.id == formId)
        (buildBookData books formId newId f todayStr) books b hfind
    refine ⟨l1, l2, h1, ?_, ?_⟩
    · simp only [handleFormSubmit, hbne, if_true]
      rw [findIdx_set_eq_replaceFirst]
      exact h2
    · simp [buildBookData, hbne, hfind, hdate]
  · intro books id ns
    induction books with
    | nil => intro i b h; simp at h
    | cons x xs ih =>
        intro i b h
        cases hx : x.id == id with
        | true =>
            cases i with
            | zero =>
                obtain rfl : x = b := by simpa using h
                right
                simp [changeStatus, hx]
            | succ n =>
                left
                simp only [List.getElem?_cons_succ] at h
                simp [changeStatus, hx, h]
        | false =>
            cases i with
            | zero =>
                left
                simpa [changeStatus, hx] using h
            | succ n =>
                simp only [List.getElem?_cons_succ] at h
                rcases ih n b h with h2 | h2
                · left
                  simp [changeStatus, hx, h2]
                · right
                  simp [changeStatus, hx, h2]

/-- Witness for C8: editing the sample book in a one-book collection
keeps its `dateAdded`, and a status change alters only the status
field. -/
theorem edit_keeps_dateAdded_witness :
    (buildBookData [sampleBook] "b001" "bNew"
      ⟨"T", "A", "", none, none, "", "", "reading", "", "", "", none, none,
       false, [], "", "", ""⟩ "2026-02-17").dateAdded = sampleBook.dateAdded ∧
    (changeStatus "b001" "reading" [sampleBook])[0]?
      = some { sampleBook with status := "reading" } := by
  constructor
  · obtain ⟨l1, l2, h1, h2, h3⟩ :=
      edit_keeps_dateAdded_and_status_only.1 [sampleBook] "b001" "bNew"
        ⟨"T", "A", "", none, none, "", "", "reading", "", "", "", none, none,
         false, [], "", "", ""⟩ "2026-02-17" sampleBook
        (by decide) (by decide) (by decide)
    exact h3
  · rcases edit_keeps_dateAdded_and_status_only.2 [sampleBook] "b001" "reading"
      0 sampleBook rfl with h | h
    · exact absurd h (by decide)
    · exact h

/-! Uniqueness of ids across the collection (claim C5).  The code does
not deduplicate within an imported array: merging or replacing with an
array that itself repeats an id produces a collection with duplicate
ids, refuting the claim as stated; with the imported array's ids
pairwise distinct (and a fresh generated id on add) every mutating
operation preserves uniqueness. -/

/-- Counterexample to C5 as stated: starting from the empty collection
(trivially with pairwise-distinct ids), import-merge of an array
containing the same book twice yields a collection with a duplicated
id. -/
theorem import_duplicate_ids_counterexample :
    (([] : List Book).map (fun b => b.id)).Nodup ∧
    ¬ (((doImport ⟨[], []⟩
          (ImportInput.parsed (Json.arr ([sampleBook, sampleBook].map bookToJson)))
          false).1.books.map (fun b => b.id)).Nodup) := by
  constructor
  · simp
  · decide

lemma map_id_replaceFirst (formId : String) (nb : Book) (hnb : nb.id = formId)
    (l : List Book) :
    (replaceFirstWith (fun x => x.id == formId) nb l).map (fun b => b.id)
      = l.map fun b => b.id := by
  induction l with
  | nil => rfl
  | cons x xs ih =>
      cases hp : x.id == formId with
      | true =>
          have hx : x.id = formId := by simpa using hp
          simp [replaceFirstWith, hp, hnb, hx]
      | false => simp [replaceFirstWith, hp, ih]

lemma map_id_changeStatus (id ns : String) (l : List Book) :
    (changeStatus id ns l).map (fun b => b.id) = l.map fun b => b.id := by
  induction l with
  | nil => rfl
  | cons x xs ih =>
      cases hp : x.id == id with
      | true => simp [changeStatus, hp]
      | false => simp [changeStatus, hp, ih]

/-- C5 (amended).  Pairwise-distinct ids are preserved by every
mutating operation, with the provisos the code actually needs: the
generated id of an add is fresh, and the imported array's own ids are
pairwise distinct (import performs no deduplication within the
imported array, as the counterexample shows). -/
theorem crud_preserves_unique_ids :
    (∀ (books : List Book) (newId : String) (f : FormData) (todayStr : String),
      (books.map (fun b => b.id)).Nodup →
      newId ∉ books.map (fun b => b.id) →
      ((handleFormSubmit books "" newId f todayStr).map (fun b => b.id)).Nodup) ∧
    (∀ (books : List Book) (formId newId : String) (f : FormData)
        (todayStr : String),
      formId ≠ "" →
      (books.map (fun b => b.id)).Nodup →
      ((handleFormSubmit books formId newId f todayStr).map
        (fun b => b.id)).Nodup) ∧
    (∀ (books : List Book) (id : String),
      (books.map (fun b => b.id)).Nodup →
      ((deleteBook books id).map (fun b => b.id)).Nodup) ∧
    (∀ (books : List Book) (id ns : String),
      (books.map (fun b => b.id)).Nodup →
      ((changeStatus id ns books).map (fun b => b.id)).Nodup) ∧
    (∀ books stored data : List Book,
      (data.map (fun b => b.id)).Nodup →
      (((doImport ⟨books, stored⟩
          (ImportInput.parsed (Json.arr (data.map bookToJson))) true).1.books.map
          (fun b => b.id)).Nodup)) ∧
    (∀ books stored data : List Book,
      (books.map (fun b => b.id)).Nodup →
      (data.map (fun b => b.id)).Nodup →
      (((doImport ⟨books, stored⟩
          (ImportInput.parsed (Json.arr (data.map bookToJson))) false).1.books.map
          (fun b => b.id)).Nodup)) := by
  refine ⟨fun books newId f todayStr hnd hfresh => ?_,
    fun books formId newId f todayStr hne hnd => ?_,
    fun books id hnd => ?_, fun books id ns hnd => ?_,
    fun books stored data hdata => ?_,
    fun books stored data hbooks hdata => ?_⟩
  · have hbne : (("" : String) != "") = false := by decide
    simp only [handleFormSubmit, hbne, Bool.false_eq_true, if_false]
    rw [List.map_append, List.nodup_append]
    refine ⟨hnd, by simp, fun a ha hb => ?_⟩
    have hid : (buildBookData books "" newId f todayStr).id = newId := by
      simp [buildBookData]
    simp only [List.map_cons, List.map_nil, List.mem_cons,
      List.not_mem_nil, or_false, hid] at hb
    rw [hb] at ha
    exact hfresh ha
  · have hbne : (formId != "") = true := by simpa using hne
    simp only [handleFormSubmit, hbne, if_true]
    rw [findIdx_set_eq_replaceFirst, map_id_replaceFirst formId _ ?_ books]
    · exact hnd
    · simp [buildBookData, hbne]
  · exact ((List.filter_sublist books).map (fun b => b.id)).nodup hnd
  · rw [map_id_changeStatus]
    exact hnd
  · simpa [doImport, decode_encode_list] using hdata
  · simp only [doImport, decode_encode_list, Bool.false_eq_true, if_false]
    rw [List.map_append, List.nodup_append]
    refine ⟨hbooks, ?_, ?_⟩
    · exact ((List.filter_sublist data).map (fun b => b.id)).nodup hdata
    · intro a ha hb
      rw [List.mem_map] at ha hb
      obtain ⟨x, hx, hxa⟩ := ha
      obtain ⟨y, hy, hya⟩ := hb
      rw [List.mem_filter] at hy
      have hany : books.any (fun bb => bb.id == y.id) = true := by
        rw [List.any_eq_true]
        exact ⟨x, hx, by simp [hxa, hya]⟩
      simp [hany] at hy

/-- Witness for C5 (amended) at concrete inputs. -/
theorem crud_preserves_unique_ids_witness :
    ((handleFormSubmit [sampleBook] "" "bNew"
        ⟨"T", "A", "", none, none, "", "", "reading", "", "", "", none, none,
         false, [], "", "", ""⟩ "2026-02-17").map (fun b => b.id)).Nodup ∧
    ((doImport ⟨[], []⟩
        (ImportInput.parsed (Json.arr ([sampleBook].map bookToJson)))
        false).1.books.map (fun b => b.id)).Nodup :=
  ⟨crud_preserves_unique_ids.1 [sampleBook] "bNew"
      ⟨"T", "A", "", none, none, "", "", "reading", "", "", "", none, none,
       false, [], "", "", ""⟩ "2026-02-17" (by decide) (by decide),
   crud_preserves_unique_ids.2.2.2.2.2 [] [] [sampleBook]
      (by decide) (by decide)⟩

end ReadingList
